import Mathlib

/-!
Verification of the dash-render time-series dashboard (`src/app.py`).

The development shallow-embeds the two pipelines of the app:

* the per-file loading loop (lines 34-59): sort by date, build the daily
  calendar over the record's own min/max date, left-outer-merge the rows onto
  the calendar, and linearly interpolate each present numeric column with
  pandas `Series.interpolate(method="linear")` semantics (by row position,
  default `limit_direction="forward"`: leading missing values stay null,
  interior nulls are linearly interpolated, nulls after the last valid value
  are filled with that last valid value);
* the `update_graph` callback (lines 127-234): Python list indexing of the
  global date list (negative indices wrap, out-of-range raises `IndexError`),
  dict lookup of the model store (`KeyError` for an absent key), the
  per-model trace loop with the `ground_truth_plotted` flag, the y-axis
  quantisation `((max(all_values) // 2000) + 1) * 2000`, and the catch-all
  `except` that turns any exception into an empty figure titled with the
  error text.

Dates are modelled as integers (day numbers), numeric cell values as `ℚ`,
and a missing cell (`NaN`) as `none`.
-/

/-- One row of a model table: a date plus the three possible numeric cells
(`groundtruth`, `predictions`, `predicted values`).  A cell is only
meaningful when the corresponding column is present in the frame. -/
structure Row where
  date : ℤ
  gt : Option ℚ
  preds : Option ℚ
  predvals : Option ℚ
deriving DecidableEq

/-- A pandas data frame as the app uses it: which of the three named columns
exist, plus the rows. -/
structure DataFrame where
  hasGT : Bool
  hasPreds : Bool
  hasPredVals : Bool
  rows : List Row
deriving DecidableEq

/-- One raw input record (one CSV file already parsed): column presence and
the raw rows, in file order (dates need not be sorted, contiguous or
distinct). -/
structure RawRecord where
  hasGT : Bool
  hasPreds : Bool
  hasPredVals : Bool
  rows : List Row
deriving DecidableEq

/-- A plotly trace as far as the claims are concerned: its legend name, x
data, y data (with `none` for `NaN` gaps) and whether its line style is
dashed (`dash='dash'`, the predicted traces) or solid (the ground-truth
trace). -/
structure Trace where
  name : String
  xs : List ℤ
  ys : List (Option ℚ)
  dashed : Bool
deriving DecidableEq

/-- The y-axis configuration set by `update_graph` when `all_values` is
non-empty: `range=[y_min, y_max]` and `dtick`. -/
structure AxisConfig where
  yMin : ℚ
  yMax : ℚ
  dtick : ℚ
deriving DecidableEq

/-- The observable part of the figure returned by `update_graph`: its traces,
its title (if one was set; a fresh `go.Figure()` has none) and its y-axis
configuration (if one was set). -/
structure Figure where
  traces : List Trace
  title : Option String
  yaxis : Option AxisConfig
deriving DecidableEq

/-- The Python exceptions that the body of `update_graph` can raise:
`KeyError` from `models_data[model]` and `IndexError` from
`date_list[...]`. -/
inductive PyErr where
  | keyError (k : String)
  | indexError
deriving DecidableEq

/-- The single-quote character Python wraps a `KeyError` key in. -/
def pyQuote : String := String.mk [Char.ofNat 39]

/-- Python `str(e)` for the exceptions of `PyErr`: `str(KeyError(k))` is the
key wrapped in single quotes, and `str(IndexError(...))` for list indexing
is the usual out-of-range message. -/
def PyErr.msg : PyErr → String
  | .keyError k => pyQuote ++ k ++ pyQuote
  | .indexError => "list index out of range"

/-- The error the loading loop can raise: `pd.date_range` raises a
`ValueError` when a record has no rows (both `min()` and `max()` of the
empty date column are `NaT`). -/
inductive LoadErr where
  | emptyDateRange
deriving DecidableEq

/- ## The loading loop (src/app.py lines 34-59) -/

/-- Insert a row into a date-sorted list, keeping the sort stable. -/
def insertByDate (r : Row) : List Row → List Row
  | [] => [r]
  | x :: xs => if r.date ≤ x.date then r :: x :: xs else x :: insertByDate r xs

/-- Pandas `df.sort_values("dates")`: stable sort of the rows by date. -/
def sortByDate (rows : List Row) : List Row := rows.foldr insertByDate []

/-- Pandas `df["dates"].min()`: `none` on an empty frame (pandas `NaT`). -/
def minDate? : List Row → Option ℤ
  | [] => none
  | r :: rs => some (rs.foldl (fun m x => min m x.date) r.date)

/-- Pandas `df["dates"].max()`: `none` on an empty frame (pandas `NaT`). -/
def maxDate? : List Row → Option ℤ
  | [] => none
  | r :: rs => some (rs.foldl (fun m x => max m x.date) r.date)

/-- Pandas `pd.date_range(start=lo, end=hi, freq="D")`: every day from `lo` to `hi`
inclusive. -/
def dateRange (lo hi : ℤ) : List ℤ :=
  (List.range (hi + 1 - lo).toNat).map (fun (n : ℕ) => lo + (n : ℤ))

/-- The all-null row a calendar day gets when no input row matches it in the
left-outer merge. -/
def nullRow (d : ℤ) : Row := ⟨d, none, none, none⟩

/-- Pandas `pd.merge(df_full, df, on="dates", how="left")`: for every calendar day,
every matching input row (in their current order), or one all-null row when
none matches. -/
def mergeLeft (calendar : List ℤ) (rows : List Row) : List Row :=
  calendar.flatMap (fun d =>
    match rows.filter (fun r => r.date == d) with
    | [] => [nullRow d]
    | ms => ms)

/-- Position (and value) of the nearest non-null entry strictly before
position `i`. -/
def prevSome (xs : List (Option ℚ)) : ℕ → Option (ℕ × ℚ)
  | 0 => none
  | j + 1 =>
    match xs.get? j with
    | some (some v) => some (j, v)
    | _ => prevSome xs j

/-- First non-null entry of `l`, indices starting at `k`. -/
def firstSomeFrom : List (Option ℚ) → ℕ → Option (ℕ × ℚ)
  | [], _ => none
  | some v :: _, k => some (k, v)
  | none :: rest, k => firstSomeFrom rest (k + 1)

/-- Position (and value) of the nearest non-null entry strictly after
position `i`. -/
def nextSome (xs : List (Option ℚ)) (i : ℕ) : Option (ℕ × ℚ) :=
  firstSomeFrom (xs.drop (i + 1)) (i + 1)

/-- One cell of pandas `Series.interpolate(method="linear")` (default
`limit_direction="forward"`) over the positional index: a non-null cell is
unchanged; a null cell with valid entries on both sides is linearly
interpolated by position; a null cell with a valid entry only before it is
filled with that entry (pandas fills past the last valid observation); a
null cell with no valid entry before it stays null. -/
def interpCell (xs : List (Option ℚ)) (i : ℕ) : Option ℚ :=
  match xs.get? i with
  | some (some v) => some v
  | some none =>
    match prevSome xs i, nextSome xs i with
    | some (j, vj), some (k, vk) =>
        some (vj + (vk - vj) * ((i : ℚ) - (j : ℚ)) / ((k : ℚ) - (j : ℚ)))
    | some (_, vj), none => some vj
    | none, _ => none
  | none => none

/-- Pandas `Series.interpolate(method="linear")` over a whole column. -/
def interpolateList (xs : List (Option ℚ)) : List (Option ℚ) :=
  (List.range xs.length).map (interpCell xs)

/-- Write a column of values back into the `groundtruth` cells. -/
def setGT (rows : List Row) (vals : List (Option ℚ)) : List Row :=
  (rows.zip vals).map (fun p => { p.1 with gt := p.2 })

/-- Write a column of values back into the `predictions` cells. -/
def setPreds (rows : List Row) (vals : List (Option ℚ)) : List Row :=
  (rows.zip vals).map (fun p => { p.1 with preds := p.2 })

/-- Write a column of values back into the `predicted values` cells. -/
def setPredVals (rows : List Row) (vals : List (Option ℚ)) : List Row :=
  (rows.zip vals).map (fun p => { p.1 with predvals := p.2 })

/-- The interpolation step of the loading loop (src/app.py lines 49-57):
interpolate exactly the columns the code checks for — `groundtruth` if that
column is present, and `predictions` if present else `predicted values` if
present. -/
def interpColumns (hasGT hasPreds hasPredVals : Bool) (merged : List Row) :
    List Row :=
  let m1 :=
    if hasGT then setGT merged (interpolateList (merged.map (·.gt)))
    else merged
  if hasPreds then setPreds m1 (interpolateList (m1.map (·.preds)))
  else if hasPredVals then
    setPredVals m1 (interpolateList (m1.map (·.predvals)))
  else m1

/-- The body of the loading loop for one record (src/app.py lines 34-59):
sort by date, take the sorted column's min and max, build the daily
calendar, left-outer-merge the rows onto it, then interpolate the present
columns. -/
def loadRecord (rec : RawRecord) : Except LoadErr DataFrame :=
  let sorted := sortByDate rec.rows
  match minDate? sorted, maxDate? sorted with
  | some lo, some hi =>
    .ok ⟨rec.hasGT, rec.hasPreds, rec.hasPredVals,
      interpColumns rec.hasGT rec.hasPreds rec.hasPredVals
        (mergeLeft (dateRange lo hi) sorted)⟩
  | _, _ => .error .emptyDateRange

/- ## The `update_graph` callback (src/app.py lines 122-234) -/

/-- The effective index of Python list indexing: a negative index counts
from the end. -/
def pyIndex (n : ℕ) (i : ℤ) : ℤ := if i < 0 then i + n else i

/-- Python list indexing `xs[i]`: a negative index counts from the end; an
index outside `[-len, len)` raises `IndexError`. -/
def pyGet {α : Type} (xs : List α) (i : ℤ) : Except PyErr α :=
  if 0 ≤ pyIndex xs.length i then
    match xs.get? (pyIndex xs.length i).toNat with
    | some a => .ok a
    | none => .error .indexError
  else .error .indexError

/-- Holds when `i` is outside the range Python list indexing accepts for a list of
length `n`. -/
def pyOutOfRange (n : ℕ) (i : ℤ) : Prop := i < -(n : ℤ) ∨ (n : ℤ) ≤ i

/-- Python `max(vs)` of a list: `none` when the list is empty (where the
code's `if all_values:` guard is False). -/
def pyMax : List ℚ → Option ℚ
  | [] => none
  | v :: vs => some (vs.foldl max v)

/-- Pandas `series.dropna().tolist()`. -/
def dropna (xs : List (Option ℚ)) : List ℚ := xs.filterMap id

/-- The filter `df[(df["dates"] >= start_date) & (df["dates"] <= end_date)]`. -/
def filterRange (df : DataFrame) (s e : ℤ) : List Row :=
  df.rows.filter (fun r => s ≤ r.date && r.date ≤ e)

/-- Which predicted-value column the code picks: `"predictions"` if that
column exists, else `"predicted values"` if that one does, else none. -/
inductive PredCol where
  | preds
  | predvals
deriving DecidableEq

/-- Read the cell of the chosen predicted-value column. -/
def Row.cell : Row → PredCol → Option ℚ
  | r, .preds => r.preds
  | r, .predvals => r.predvals

/-- The `pred_col` choice of src/app.py lines 162-166. -/
def predColOf (df : DataFrame) : Option PredCol :=
  if df.hasPreds then some .preds
  else if df.hasPredVals then some .predvals
  else none

/-- Here `qfloor q` is `⌊q⌋` computed as the code's float floor-division does,
through the fraction's numerator and denominator. -/
def qfloor (q : ℚ) : ℤ := q.num / q.den

/-- The quantity `y_max = ((max(all_values) // 2000) + 1) * 2000`. -/
def yMaxOf (m : ℚ) : ℚ := ((qfloor (m / 2000) + 1 : ℤ) : ℚ) * 2000

/-- Does `pat` occur at the head of `s`? -/
def matchesAt : List Char → List Char → Bool
  | [], _ => true
  | _ :: _, [] => false
  | p :: ps, c :: cs => p == c && matchesAt ps cs

/-- Replace every occurrence of `pat` in `s` by `rep`, left to right, as
Python `str.replace` does; `fuel` bounds the recursion (the wrapper passes
the string length, which suffices because every step consumes at least one
character for a non-empty pattern). -/
def replaceAllAux (pat rep : List Char) : ℕ → List Char → List Char
  | _, [] => []
  | 0, s => s
  | fuel + 1, c :: rest =>
    if matchesAt pat (c :: rest) then
      rep ++ replaceAllAux pat rep fuel ((c :: rest).drop pat.length)
    else c :: replaceAllAux pat rep fuel rest

/-- Python `s.replace(pat, "")`. -/
def removeAll (pat : List Char) (s : List Char) : List Char :=
  replaceAllAux pat [] s.length s

/-- The first file-name pattern the code strips from a model name. -/
def resultsPat : String := "results-csv_"

/-- The second file-name pattern the code strips from a model name. -/
def resultPat : String := "result-csv_"

/-- The code line `display_name = model.replace("results-csv_", "").replace("result-csv_", "")`. -/
def displayName (model : String) : String :=
  String.mk (removeAll resultPat.toList (removeAll resultsPat.toList model.toList))

/-- The legend name of the ground-truth trace. -/
def actualLabel : String := "Actual Values"

/-- The solid ground-truth trace of a filtered frame: x data the filtered
dates, y data every filtered `groundtruth` cell (nulls pass through as
gaps). -/
def mkActualTrace (filtered : List Row) : Trace :=
  ⟨actualLabel, filtered.map (·.date), filtered.map (·.gt), false⟩

/-- The dashed predicted-values trace of a model over a filtered frame. -/
def mkPredTrace (model : String) (filtered : List Row) (c : PredCol) : Trace :=
  ⟨displayName model, filtered.map (·.date), filtered.map (fun r => r.cell c), true⟩

/-- The loop state of `update_graph`: the `ground_truth_plotted` flag, the
`all_values` accumulator and the traces added to the figure so far. -/
structure LoopState where
  gtPlotted : Bool
  allValues : List ℚ
  traces : List Trace
deriving DecidableEq

/-- Lines 150-159: if the flag is not set and the frame has a `groundtruth`
column, extend `all_values` with the filtered column's non-null values, add
the solid trace, and set the flag. -/
def gtStep (st : LoopState) (df : DataFrame) (filtered : List Row) : LoopState :=
  if !st.gtPlotted && df.hasGT then
    { gtPlotted := true
      allValues := st.allValues ++ dropna (filtered.map (·.gt))
      traces := st.traces ++ [mkActualTrace filtered] }
  else st

/-- Lines 161-179: if the frame has a predicted-value column under either
name, extend `all_values` with its filtered non-null values and add the
dashed trace. -/
def predStep (st : LoopState) (model : String) (df : DataFrame)
    (filtered : List Row) : LoopState :=
  match predColOf df with
  | some c =>
    { st with
      allValues := st.allValues ++ dropna (filtered.map (fun r => r.cell c))
      traces := st.traces ++ [mkPredTrace model filtered c] }
  | none => st

/-- One iteration of the `for model in selected_models` loop:
`models_data[model]` (raising `KeyError` when absent), the date filter, the
ground-truth step, then the predicted-values step. -/
def processModel (models_data : List (String × DataFrame)) (s e : ℤ)
    (st : LoopState) (model : String) : Except PyErr LoopState :=
  match models_data.lookup model with
  | none => .error (.keyError model)
  | some df =>
    let filtered := filterRange df s e
    .ok (predStep (gtStep st df filtered) model df filtered)

/-- The whole `for model in selected_models` loop. -/
def processModels (models_data : List (String × DataFrame)) (s e : ℤ) :
    LoopState → List String → Except PyErr LoopState
  | st, [] => .ok st
  | st, m :: rest =>
    match processModel models_data s e st m with
    | .error er => .error er
    | .ok st1 => processModels models_data s e st1 rest

/-- Prefix of the title set in the non-empty `all_values` branch. -/
def titleFrom : String := "Smooth Time-Series Data from "

/-- Connective of the title set in the non-empty `all_values` branch. -/
def titleTo : String := " to "

/-- The title `update_graph` sets when `all_values` is non-empty (dates
rendered abstractly by their day number standing in for `strftime`). -/
def mkTitle (s e : ℤ) : String := titleFrom ++ toString s ++ titleTo ++ toString e

/-- Prefix of the title of the fallback figure of the `except` branch. -/
def errTitle : String := "Error loading data: "

/-- The diagnostic figure built in the `except` branch: a fresh empty figure
whose title carries the error text. -/
def errorFigure (msg : String) : Figure :=
  { traces := [], title := some (errTitle ++ msg), yaxis := none }

/-- The body of the `try` block of `update_graph`: resolve both slider
indices against `date_list`, run the model loop, then set title and y-axis
exactly when `all_values` is non-empty. -/
def updateGraphE (models_data : List (String × DataFrame)) (date_list : List ℤ)
    (selected_models : List String) (slider_range : ℤ × ℤ) : Except PyErr Figure :=
  match pyGet date_list slider_range.1 with
  | .error er => .error er
  | .ok startDate =>
    match pyGet date_list slider_range.2 with
    | .error er => .error er
    | .ok endDate =>
      match processModels models_data startDate endDate ⟨false, [], []⟩ selected_models with
      | .error er => .error er
      | .ok st =>
        match pyMax st.allValues with
        | some m =>
          .ok ⟨st.traces, some (mkTitle startDate endDate), some ⟨0, yMaxOf m, 2000⟩⟩
        | none => .ok ⟨st.traces, none, none⟩

/-- `update_graph` with its catch-all `except`: any exception raised by the
body becomes the diagnostic figure titled with the error text. -/
def update_graph (models_data : List (String × DataFrame)) (date_list : List ℤ)
    (selected_models : List String) (slider_range : ℤ × ℤ) : Figure :=
  match updateGraphE models_data date_list selected_models slider_range with
  | .ok fig => fig
  | .error er => errorFigure er.msg

/- ## Derived descriptions used by the theorems -/

/-- Does the stored frame of `m` have a `groundtruth` column?  (`false` also
when `m` is not in the store.) -/
def hasGTin (models_data : List (String × DataFrame)) (m : String) : Bool :=
  match models_data.lookup m with
  | some df => df.hasGT
  | none => false

/-- The solid trace the ground-truth step would emit for model `m`. -/
def actualFor (models_data : List (String × DataFrame)) (s e : ℤ) (m : String) :
    List Trace :=
  match models_data.lookup m with
  | some df => [mkActualTrace (filterRange df s e)]
  | none => []

/-- The solid traces of a whole selection: the one of the first selected
model whose frame has a `groundtruth` column, if any. -/
def actualsOf (models_data : List (String × DataFrame)) (s e : ℤ)
    (sel : List String) : List Trace :=
  match sel.find? (hasGTin models_data) with
  | some m => actualFor models_data s e m
  | none => []

/-- The dashed trace the predicted-values step emits for model `m`: one
trace when its frame has a predicted-value column under either accepted
name, none otherwise. -/
def predTraceFor (models_data : List (String × DataFrame)) (s e : ℤ)
    (m : String) : List Trace :=
  match models_data.lookup m with
  | some df =>
    match predColOf df with
    | some c => [mkPredTrace m (filterRange df s e) c]
    | none => []
  | none => []

/- ## Step lemmas for the model loop -/

lemma gtStep_gtPlotted (st : LoopState) (df : DataFrame) (f : List Row) :
    (gtStep st df f).gtPlotted = (st.gtPlotted || df.hasGT) := by
  unfold gtStep
  cases hg : st.gtPlotted <;> cases hd : df.hasGT <;> simp [hg, hd]

lemma gtStep_traces (st : LoopState) (df : DataFrame) (f : List Row) :
    (gtStep st df f).traces
      = st.traces ++ (if !st.gtPlotted && df.hasGT then [mkActualTrace f] else []) := by
  unfold gtStep
  cases hg : st.gtPlotted <;> cases hd : df.hasGT <;> simp [hg, hd]

lemma gtStep_allValues (st : LoopState) (df : DataFrame) (f : List Row) :
    (gtStep st df f).allValues
      = st.allValues
        ++ (if !st.gtPlotted && df.hasGT then dropna (f.map (·.gt)) else []) := by
  unfold gtStep
  cases hg : st.gtPlotted <;> cases hd : df.hasGT <;> simp [hg, hd]

lemma predStep_gtPlotted (st : LoopState) (m : String) (df : DataFrame)
    (f : List Row) : (predStep st m df f).gtPlotted = st.gtPlotted := by
  unfold predStep
  cases predColOf df <;> simp

lemma predStep_traces (st : LoopState) (m : String) (df : DataFrame)
    (f : List Row) :
    (predStep st m df f).traces
      = st.traces
        ++ (match predColOf df with
            | some c => [mkPredTrace m f c]
            | none => []) := by
  unfold predStep
  cases predColOf df <;> simp

lemma predStep_allValues (st : LoopState) (m : String) (df : DataFrame)
    (f : List Row) :
    (predStep st m df f).allValues
      = st.allValues
        ++ (match predColOf df with
            | some c => dropna (f.map (fun r => r.cell c))
            | none => []) := by
  unfold predStep
  cases predColOf df <;> simp

/- ## Loop lemmas -/

lemma processModels_ok_of_lookup (models_data : List (String × DataFrame))
    (s e : ℤ) :
    ∀ (sel : List String) (st : LoopState),
      (∀ m ∈ sel, (models_data.lookup m).isSome) →
      ∃ st', processModels models_data s e st sel = .ok st' := by
  intro sel
  induction sel with
  | nil => intro st _; exact ⟨st, rfl⟩
  | cons m rest ih =>
    intro st h
    have hm : (models_data.lookup m).isSome := h m (by simp)
    cases hd : models_data.lookup m with
    | none => rw [hd] at hm; simp at hm
    | some df =>
      obtain ⟨st', hst'⟩ :=
        ih (predStep (gtStep st df (filterRange df s e)) m df (filterRange df s e))
          (fun x hx => h x (by simp [hx]))
      exact ⟨st', by simp only [processModels, processModel, hd, hst']⟩

lemma processModels_allValues_mono (models_data : List (String × DataFrame))
    (s e : ℤ) :
    ∀ (sel : List String) (st st' : LoopState),
      processModels models_data s e st sel = .ok st' →
      ∃ t, st'.allValues = st.allValues ++ t := by
  intro sel
  induction sel with
  | nil =>
    intro st st' h
    simp only [processModels] at h
    cases h
    exact ⟨[], by simp⟩
  | cons m rest ih =>
    intro st st' h
    simp only [processModels, processModel] at h
    cases hd : models_data.lookup m with
    | none => rw [hd] at h; simp at h
    | some df =>
      rw [hd] at h
      simp only [] at h
      obtain ⟨t, ht⟩ := ih _ _ h
      have hx : (predStep (gtStep st df (filterRange df s e)) m df
            (filterRange df s e)).allValues
          = st.allValues
            ++ ((if !st.gtPlotted && df.hasGT then
                  dropna ((filterRange df s e).map (·.gt)) else [])
                ++ (match predColOf df with
                    | some c => dropna ((filterRange df s e).map (fun r => r.cell c))
                    | none => [])) := by
        rw [predStep_allValues, gtStep_allValues, List.append_assoc]
      exact ⟨_, by rw [ht, hx, List.append_assoc]⟩

lemma processModels_flag_true (models_data : List (String × DataFrame))
    (s e : ℤ) :
    ∀ (sel : List String) (st st' : LoopState),
      st.gtPlotted = true →
      processModels models_data s e st sel = .ok st' →
      st'.traces.filter (fun t => !t.dashed) = st.traces.filter (fun t => !t.dashed)
        ∧ st'.gtPlotted = true := by
  intro sel
  induction sel with
  | nil =>
    intro st st' hflag h
    simp only [processModels] at h
    cases h
    exact ⟨rfl, hflag⟩
  | cons m rest ih =>
    intro st st' hflag h
    simp only [processModels, processModel] at h
    cases hd : models_data.lookup m with
    | none => rw [hd] at h; simp at h
    | some df =>
      rw [hd] at h
      simp only [] at h
      have hflag1 :
          (predStep (gtStep st df (filterRange df s e)) m df (filterRange df s e)).gtPlotted
            = true := by
        rw [predStep_gtPlotted, gtStep_gtPlotted, hflag]
        simp
      obtain ⟨htr, hfl⟩ := ih _ _ hflag1 h
      refine ⟨?_, hfl⟩
      rw [htr, predStep_traces, gtStep_traces, hflag]
      cases hc : predColOf df <;>
        simp [List.filter_append, mkPredTrace, mkActualTrace]

lemma processModels_gt_char (models_data : List (String × DataFrame)) (s e : ℤ) :
    ∀ (sel : List String) (st st' : LoopState),
      st.gtPlotted = false →
      processModels models_data s e st sel = .ok st' →
      st'.traces.filter (fun t => !t.dashed)
          = st.traces.filter (fun t => !t.dashed) ++ actualsOf models_data s e sel
        ∧ st'.gtPlotted = (sel.find? (hasGTin models_data)).isSome := by
  intro sel
  induction sel with
  | nil =>
    intro st st' hflag h
    simp only [processModels] at h
    cases h
    simp [actualsOf, hflag]
  | cons m rest ih =>
    intro st st' hflag h
    simp only [processModels, processModel] at h
    cases hd : models_data.lookup m with
    | none => rw [hd] at h; simp at h
    | some df =>
      rw [hd] at h
      simp only [] at h
      cases hgt : df.hasGT with
      | true =>
        have hflag2 : (predStep (gtStep st df (filterRange df s e)) m df
            (filterRange df s e)).gtPlotted = true := by
          rw [predStep_gtPlotted, gtStep_gtPlotted, hflag, hgt]
          rfl
        obtain ⟨htr, hfl⟩ := processModels_flag_true models_data s e rest _ _ hflag2 h
        constructor
        · rw [htr, predStep_traces, gtStep_traces, hflag, hgt]
          cases hc : predColOf df <;>
            simp [List.filter_append, mkPredTrace, mkActualTrace, actualsOf,
              List.find?, hasGTin, hd, hgt, actualFor]
        · rw [hfl]
          simp [List.find?, hasGTin, hd, hgt]
      | false =>
        have hflag2 : (predStep (gtStep st df (filterRange df s e)) m df
            (filterRange df s e)).gtPlotted = false := by
          rw [predStep_gtPlotted, gtStep_gtPlotted, hflag, hgt]
          rfl
        obtain ⟨htr, hfl⟩ := ih _ _ hflag2 h
        constructor
        · rw [htr, predStep_traces, gtStep_traces, hflag, hgt]
          cases hc : predColOf df <;>
            simp [List.filter_append, mkPredTrace, actualsOf, List.find?, hasGTin, hd, hgt]
        · rw [hfl]
          simp [List.find?, hasGTin, hd, hgt]

lemma processModels_pred_char (models_data : List (String × DataFrame)) (s e : ℤ) :
    ∀ (sel : List String) (st st' : LoopState),
      processModels models_data s e st sel = .ok st' →
      st'.traces.filter (fun t => t.dashed)
        = st.traces.filter (fun t => t.dashed)
          ++ sel.flatMap (predTraceFor models_data s e) := by
  intro sel
  induction sel with
  | nil =>
    intro st st' h
    simp only [processModels] at h
    cases h
    simp
  | cons m rest ih =>
    intro st st' h
    simp only [processModels, processModel] at h
    cases hd : models_data.lookup m with
    | none => rw [hd] at h; simp at h
    | some df =>
      rw [hd] at h
      simp only [] at h
      have htr := ih _ _ h
      rw [htr, predStep_traces, gtStep_traces]
      cases hc : predColOf df with
      | none =>
        cases hif : (!st.gtPlotted && df.hasGT) <;>
          simp [List.filter_append, mkActualTrace, predTraceFor, hd, hc, hif]
      | some c =>
        cases hif : (!st.gtPlotted && df.hasGT) <;>
          simp [List.filter_append, mkActualTrace, mkPredTrace, predTraceFor, hd, hc, hif]

lemma processModels_gt_infix (models_data : List (String × DataFrame)) (s e : ℤ) :
    ∀ (sel : List String) (st st' : LoopState),
      st.gtPlotted = false →
      processModels models_data s e st sel = .ok st' →
      ∀ m df, sel.find? (hasGTin models_data) = some m →
        models_data.lookup m = some df →
        ∃ pre post,
          st'.allValues = pre ++ dropna ((filterRange df s e).map (·.gt)) ++ post := by
  intro sel
  induction sel with
  | nil =>
    intro st st' _ _ m df hfind
    simp [List.find?] at hfind
  | cons m0 rest ih =>
    intro st st' hflag h m df hfind hdm
    simp only [processModels, processModel] at h
    cases hd : models_data.lookup m0 with
    | none => rw [hd] at h; simp at h
    | some df0 =>
      rw [hd] at h
      simp only [] at h
      cases hgt : hasGTin models_data m0 with
      | true =>
        have hm : m = m0 := by
          rw [List.find?_cons_of_pos _ hgt] at hfind
          exact (Option.some_inj.mp hfind).symm
        subst hm
        have hdf : df0 = df := by
          rw [hd] at hdm
          exact Option.some_inj.mp hdm
        subst hdf
        have hgt0 : df0.hasGT = true := by
          unfold hasGTin at hgt
          rw [hd] at hgt
          exact hgt
        obtain ⟨t, ht⟩ := processModels_allValues_mono models_data s e rest _ _ h
        refine ⟨st.allValues,
          (match predColOf df0 with
            | some c => dropna ((filterRange df0 s e).map (fun r => r.cell c))
            | none => []) ++ t, ?_⟩
        rw [ht, predStep_allValues, gtStep_allValues, hflag, hgt0]
        simp [List.append_assoc]
      | false =>
        have hflag2 : (predStep (gtStep st df0 (filterRange df0 s e)) m0 df0
            (filterRange df0 s e)).gtPlotted = false := by
          have hgt0 : df0.hasGT = false := by
            unfold hasGTin at hgt
            rw [hd] at hgt
            exact hgt
          rw [predStep_gtPlotted, gtStep_gtPlotted, hflag, hgt0]
          rfl
        rw [List.find?_cons_of_neg _ (by rw [hgt]; simp)] at hfind
        exact ih _ _ hflag2 h m df hfind hdm

lemma processModels_pred_infix (models_data : List (String × DataFrame)) (s e : ℤ) :
    ∀ (sel : List String) (st st' : LoopState),
      processModels models_data s e st sel = .ok st' →
      ∀ m df c, m ∈ sel → models_data.lookup m = some df → predColOf df = some c →
        ∃ pre post,
          st'.allValues
            = pre ++ dropna ((filterRange df s e).map (fun r => r.cell c)) ++ post := by
  intro sel
  induction sel with
  | nil =>
    intro st st' _ m df c hmem
    simp at hmem
  | cons m0 rest ih =>
    intro st st' h m df c hmem hdm hc
    simp only [processModels, processModel] at h
    cases hd : models_data.lookup m0 with
    | none => rw [hd] at h; simp at h
    | some df0 =>
      rw [hd] at h
      simp only [] at h
      rcases List.mem_cons.mp hmem with rfl | hmem'
      · have hdf : df0 = df := by
          rw [hd] at hdm
          exact Option.some_inj.mp hdm
        subst hdf
        obtain ⟨t, ht⟩ := processModels_allValues_mono models_data s e rest _ _ h
        refine ⟨(gtStep st df0 (filterRange df0 s e)).allValues, t, ?_⟩
        rw [ht, predStep_allValues, hc, List.append_assoc]
      · exact ih _ _ h m df c hmem' hdm hc

lemma update_graph_eq (models_data : List (String × DataFrame))
    (date_list : List ℤ) (sel : List String) (r : ℤ × ℤ) (s e : ℤ)
    (st : LoopState)
    (h1 : pyGet date_list r.1 = .ok s) (h2 : pyGet date_list r.2 = .ok e)
    (h3 : processModels models_data s e ⟨false, [], []⟩ sel = .ok st) :
    update_graph models_data date_list sel r
      = match pyMax st.allValues with
        | some m => ⟨st.traces, some (mkTitle s e), some ⟨0, yMaxOf m, 2000⟩⟩
        | none => ⟨st.traces, none, none⟩ := by
  unfold update_graph updateGraphE
  simp only [h1, h2, h3]
  cases pyMax st.allValues <;> rfl

/- ## Python indexing lemmas -/

lemma pyGet_out {α : Type} (xs : List α) (i : ℤ) (h : pyOutOfRange xs.length i) :
    pyGet xs i = .error .indexError := by
  unfold pyGet pyIndex
  unfold pyOutOfRange at h
  rcases h with h | h
  · rw [if_pos (show i < 0 by omega)]
    rw [if_neg (show ¬ (0 : ℤ) ≤ i + xs.length by omega)]
  · have hi : ¬ i < 0 := by omega
    rw [if_neg hi, if_pos (show (0 : ℤ) ≤ i by omega)]
    have : xs.get? i.toNat = none := by
      rw [List.get?_eq_none]
      omega
    rw [this]

lemma pyGet_ok {α : Type} (xs : List α) (i : ℤ) (h : ¬ pyOutOfRange xs.length i) :
    ∃ a, pyGet xs i = .ok a := by
  unfold pyOutOfRange at h
  push_neg at h
  obtain ⟨h1, h2⟩ := h
  have hj1 : (0 : ℤ) ≤ pyIndex xs.length i := by
    unfold pyIndex
    split <;> omega
  have hj2 : (pyIndex xs.length i).toNat < xs.length := by
    unfold pyIndex
    split <;> omega
  unfold pyGet
  rw [if_pos hj1]
  cases hg : xs.get? (pyIndex xs.length i).toNat with
  | none =>
    rw [List.get?_eq_none] at hg
    omega
  | some a => exact ⟨a, rfl⟩

/- ## Interpolation lemmas -/

lemma interpolateList_length (xs : List (Option ℚ)) :
    (interpolateList xs).length = xs.length := by
  unfold interpolateList
  simp

lemma interpolateList_get? (xs : List (Option ℚ)) (i : ℕ) (h : i < xs.length) :
    (interpolateList xs).get? i = some (interpCell xs i) := by
  unfold interpolateList
  rw [List.get?_map, List.get?_range h]
  rfl

lemma prevSome_eq_none (xs : List (Option ℚ)) :
    ∀ i, (∀ j, j < i → ∀ v, xs.get? j ≠ some (some v)) → prevSome xs i = none := by
  intro i
  induction i with
  | zero => intro _; rfl
  | succ j ih =>
    intro h
    unfold prevSome
    cases hg : xs.get? j with
    | none => exact ih (fun k hk v => h k (by omega) v)
    | some o =>
      cases o with
      | none => exact ih (fun k hk v => h k (by omega) v)
      | some v => exact absurd hg (h j (by omega) v)

lemma firstSomeFrom_eq_none :
    ∀ (l : List (Option ℚ)) (k : ℕ),
      (∀ idx v, l.get? idx ≠ some (some v)) → firstSomeFrom l k = none := by
  intro l
  induction l with
  | nil => intro _ _; rfl
  | cons x rest ih =>
    intro k h
    cases x with
    | some v => exact absurd rfl (h 0 v)
    | none => exact ih (k + 1) (fun idx v => h (idx + 1) v)

lemma nextSome_eq_none (xs : List (Option ℚ)) (i : ℕ)
    (h : ∀ k, i < k → ∀ w, xs.get? k ≠ some (some w)) : nextSome xs i = none := by
  unfold nextSome
  apply firstSomeFrom_eq_none
  intro idx v hg
  rw [List.get?_drop] at hg
  exact h (i + 1 + idx) (by omega) v hg

/- ## Loader lemmas -/

lemma insertByDate_perm (r : Row) (l : List Row) :
    List.Perm (insertByDate r l) (r :: l) := by
  induction l with
  | nil => exact List.Perm.refl _
  | cons x xs ih =>
    unfold insertByDate
    split
    · exact List.Perm.refl _
    · exact ((ih.cons x).trans (List.Perm.swap r x xs))

lemma sortByDate_perm (rows : List Row) : List.Perm (sortByDate rows) rows := by
  induction rows with
  | nil => exact List.Perm.refl _
  | cons r rs ih =>
    have h1 : sortByDate (r :: rs) = insertByDate r (sortByDate rs) := rfl
    rw [h1]
    exact (insertByDate_perm r (sortByDate rs)).trans (ih.cons r)

lemma minDate?_eq_min? (l : List Row) : minDate? l = (l.map (·.date)).min? := by
  cases l with
  | nil => rfl
  | cons r rs =>
    simp only [minDate?, List.map_cons, List.min?]
    rw [List.foldl_map]

lemma maxDate?_eq_max? (l : List Row) : maxDate? l = (l.map (·.date)).max? := by
  cases l with
  | nil => rfl
  | cons r rs =>
    simp only [maxDate?, List.map_cons, List.max?]
    rw [List.foldl_map]

lemma min?_iff (xs : List ℤ) (a : ℤ) :
    xs.min? = some a ↔ a ∈ xs ∧ ∀ b ∈ xs, a ≤ b :=
  @List.min?_eq_some_iff ℤ a _ _ ⟨fun hx hy => le_antisymm hx hy⟩
    (fun x => le_refl x) (fun x y => min_choice x y) (fun x y z => le_min_iff) xs

lemma max?_iff (xs : List ℤ) (a : ℤ) :
    xs.max? = some a ↔ a ∈ xs ∧ ∀ b ∈ xs, b ≤ a :=
  @List.max?_eq_some_iff ℤ a _ _ ⟨fun hx hy => le_antisymm hx hy⟩
    (fun x => le_refl x) (fun x y => max_choice x y) (fun x y z => max_le_iff) xs

lemma min?_perm {l₁ l₂ : List ℤ} (p : List.Perm l₁ l₂) : l₁.min? = l₂.min? := by
  cases h1 : l₁.min? with
  | none =>
    cases l₁ with
    | nil =>
      have : l₂ = [] := List.Perm.eq_nil p.symm
      rw [this]
      rfl
    | cons x xs => simp [List.min?] at h1
  | some m =>
    symm
    rw [min?_iff] at h1 ⊢
    exact ⟨p.mem_iff.mp h1.1, fun b hb => h1.2 b (p.mem_iff.mpr hb)⟩

lemma max?_perm {l₁ l₂ : List ℤ} (p : List.Perm l₁ l₂) : l₁.max? = l₂.max? := by
  cases h1 : l₁.max? with
  | none =>
    cases l₁ with
    | nil =>
      have : l₂ = [] := List.Perm.eq_nil p.symm
      rw [this]
      rfl
    | cons x xs => simp [List.max?] at h1
  | some m =>
    symm
    rw [max?_iff] at h1 ⊢
    exact ⟨p.mem_iff.mp h1.1, fun b hb => h1.2 b (p.mem_iff.mpr hb)⟩

lemma minDate?_sortByDate (rows : List Row) :
    minDate? (sortByDate rows) = minDate? rows := by
  rw [minDate?_eq_min?, minDate?_eq_min?]
  exact min?_perm ((sortByDate_perm rows).map (·.date))

lemma maxDate?_sortByDate (rows : List Row) :
    maxDate? (sortByDate rows) = maxDate? rows := by
  rw [maxDate?_eq_max?, maxDate?_eq_max?]
  exact max?_perm ((sortByDate_perm rows).map (·.date))

lemma minDate?_le_maxDate? {l : List Row} {lo hi : ℤ}
    (h1 : minDate? l = some lo) (h2 : maxDate? l = some hi) : lo ≤ hi := by
  rw [minDate?_eq_min?, min?_iff] at h1
  rw [maxDate?_eq_max?, max?_iff] at h2
  exact h1.2 hi h2.1

lemma filter_date_len_le (rows : List Row)
    (hnd : (rows.map (·.date)).Nodup) :
    ∀ d, (rows.filter (fun r => r.date == d)).length ≤ 1 := by
  induction rows with
  | nil => intro d; simp
  | cons r rs ih =>
    intro d
    simp only [List.map_cons, List.nodup_cons] at hnd
    obtain ⟨hr, hnd2⟩ := hnd
    by_cases hd : r.date = d
    · rw [List.filter_cons_of_pos (by simp [hd])]
      have hnil : rs.filter (fun x => x.date == d) = [] := by
        rw [List.filter_eq_nil]
        intro a ha hb
        apply hr
        rw [List.mem_map]
        refine ⟨a, ha, ?_⟩
        have : a.date = d := by simpa using hb
        rw [this, hd]
      rw [hnil]
      simp
    · rw [List.filter_cons_of_neg (by simp [hd])]
      exact ih hnd2 d

lemma mergeLeft_map_date (rows : List Row)
    (hcnt : ∀ d, (rows.filter (fun r => r.date == d)).length ≤ 1) :
    ∀ calendar : List ℤ, (mergeLeft calendar rows).map (·.date) = calendar := by
  intro calendar
  induction calendar with
  | nil => rfl
  | cons d rest ih =>
    unfold mergeLeft at ih ⊢
    rw [List.flatMap_cons, List.map_append, ih]
    cases hf : rows.filter (fun r => r.date == d) with
    | nil => simp [hf, nullRow]
    | cons r rs =>
      have h1 := hcnt d
      rw [hf] at h1
      cases rs with
      | cons a b => simp at h1
      | nil =>
        have hr : r ∈ rows.filter (fun x => x.date == d) := by
          rw [hf]
          simp
        have h2 : r.date = d := by simpa using List.of_mem_filter hr
        simp [hf, h2]

lemma dateRange_length (lo hi : ℤ) (h : lo ≤ hi) :
    (dateRange lo hi).length = (hi - lo).toNat + 1 := by
  unfold dateRange
  simp only [List.length_map, List.length_range]
  omega

lemma dateRange_get? (lo hi : ℤ) (i : ℕ) (h : i < (hi + 1 - lo).toNat) :
    (dateRange lo hi).get? i = some (lo + (i : ℤ)) := by
  unfold dateRange
  rw [List.get?_map, List.get?_range h]
  rfl

lemma zip_set_map_date (f : Row → Option ℚ → Row)
    (hf : ∀ r v, (f r v).date = r.date) :
    ∀ (rows : List Row) (vals : List (Option ℚ)), vals.length = rows.length →
      (((rows.zip vals).map (fun p => f p.1 p.2)).map (·.date)) = rows.map (·.date) := by
  intro rows
  induction rows with
  | nil => intro vals _; simp
  | cons r rs ih =>
    intro vals hlen
    cases vals with
    | nil => simp at hlen
    | cons v vs =>
      simp only [List.zip_cons_cons, List.map_cons, hf]
      rw [ih vs (by simpa using hlen)]

lemma sortByDate_nil_iff (rows : List Row) : sortByDate rows = [] ↔ rows = [] := by
  constructor
  · intro h
    have := (sortByDate_perm rows).length_eq
    rw [h] at this
    exact List.length_eq_zero.mp this.symm
  · intro h
    rw [h]
    rfl

lemma setGT_map_date (rows : List Row) (vals : List (Option ℚ))
    (h : vals.length = rows.length) :
    (setGT rows vals).map (·.date) = rows.map (·.date) :=
  zip_set_map_date (fun r v => { r with gt := v }) (fun _ _ => rfl) rows vals h

lemma setPreds_map_date (rows : List Row) (vals : List (Option ℚ))
    (h : vals.length = rows.length) :
    (setPreds rows vals).map (·.date) = rows.map (·.date) :=
  zip_set_map_date (fun r v => { r with preds := v }) (fun _ _ => rfl) rows vals h

lemma setPredVals_map_date (rows : List Row) (vals : List (Option ℚ))
    (h : vals.length = rows.length) :
    (setPredVals rows vals).map (·.date) = rows.map (·.date) :=
  zip_set_map_date (fun r v => { r with predvals := v }) (fun _ _ => rfl) rows vals h

lemma interpColumns_map_date (g p pv : Bool) (merged : List Row) :
    (interpColumns g p pv merged).map (·.date) = merged.map (·.date) := by
  unfold interpColumns
  cases g <;> cases p <;> cases pv <;>
    simp [setGT_map_date, setPreds_map_date, setPredVals_map_date,
      interpolateList_length]

/- ## Axis lemmas -/

lemma qfloor_eq_floor (q : ℚ) : qfloor q = ⌊q⌋ := Eq.symm Rat.floor_def

lemma yMaxOf_gt (m : ℚ) : m < yMaxOf m := by
  unfold yMaxOf
  rw [qfloor_eq_floor]
  have h := Int.lt_floor_add_one (m / 2000)
  have h2000 : (0 : ℚ) < 2000 := by norm_num
  have h3 := (div_lt_iff h2000).mp h
  push_cast
  linarith

lemma yMaxOf_1999 : yMaxOf 1999 = 2000 := by
  unfold yMaxOf
  rw [qfloor_eq_floor]
  have h : ⌊(1999 : ℚ) / 2000⌋ = 0 := by
    rw [Int.floor_eq_iff] <;> norm_num
  rw [h]
  norm_num

lemma yMaxOf_2000 : yMaxOf 2000 = 4000 := by
  unfold yMaxOf
  rw [qfloor_eq_floor]
  have h : ⌊(2000 : ℚ) / 2000⌋ = 1 := by
    rw [Int.floor_eq_iff] <;> norm_num
  rw [h]
  norm_num

/- ## Error-path lemmas -/

lemma pyGet_error {α : Type} (xs : List α) (i : ℤ) (er : PyErr)
    (h : pyGet xs i = .error er) : er = .indexError := by
  unfold pyGet at h
  split at h
  · split at h
    · exact absurd h (by simp)
    · exact (Except.error.inj h).symm
  · exact (Except.error.inj h).symm

lemma processModels_error_of_absent (models_data : List (String × DataFrame))
    (s e : ℤ) :
    ∀ (sel : List String) (st : LoopState),
      (∃ m, m ∈ sel ∧ models_data.lookup m = none) →
      ∃ k, k ∈ sel ∧ models_data.lookup k = none ∧
        processModels models_data s e st sel = .error (.keyError k) := by
  intro sel
  induction sel with
  | nil =>
    intro st h
    obtain ⟨m, hm, _⟩ := h
    simp at hm
  | cons m0 rest ih =>
    intro st h
    cases hd : models_data.lookup m0 with
    | none =>
      refine ⟨m0, by simp, hd, ?_⟩
      simp only [processModels, processModel, hd]
    | some df =>
      obtain ⟨m, hm, hnone⟩ := h
      have hm2 : m ∈ rest := by
        rcases List.mem_cons.mp hm with rfl | h2
        · rw [hd] at hnone
          exact absurd hnone (by simp)
        · exact h2
      obtain ⟨k, hk1, hk2, hk3⟩ :=
        ih (predStep (gtStep st df (filterRange df s e)) m0 df (filterRange df s e))
          ⟨m, hm2, hnone⟩
      refine ⟨k, by simp [hk1], hk2, ?_⟩
      simp only [processModels, processModel, hd, hk3]

lemma actualsOf_length_le (models_data : List (String × DataFrame)) (s e : ℤ)
    (sel : List String) : (actualsOf models_data s e sel).length ≤ 1 := by
  unfold actualsOf
  cases sel.find? (hasGTin models_data) with
  | none => simp
  | some m =>
    unfold actualFor
    cases hd : models_data.lookup m <;> simp [hd]

/- ## Concrete fixtures used by witnesses and counterexamples -/

def mName : String := "m"

def aName : String := "a"

def gName : String := "g"

def pName : String := "p"

def xName : String := "x"

/-- A frame with a `groundtruth` column whose only row carries no value. -/
def dfGTnull : DataFrame := ⟨true, false, false, [⟨0, none, none, none⟩]⟩

def storeGTnull : List (String × DataFrame) := [(mName, dfGTnull)]

/-- A row carrying both a ground-truth and a predicted value. -/
def rowA : Row := ⟨0, some 5, some 7, none⟩

/-- A frame with both a `groundtruth` and a `predictions` column. -/
def dfA : DataFrame := ⟨true, true, false, [rowA]⟩

def storeA : List (String × DataFrame) := [(aName, dfA)]

/-- The loop state after processing `storeA` over the window `[0, 0]`. -/
def stA : LoopState :=
  ⟨true, [5, 7], [mkActualTrace [rowA], mkPredTrace aName [rowA] PredCol.preds]⟩

/-- A frame with only a `groundtruth` column (no predicted-value column
under either accepted name). -/
def dfG : DataFrame := ⟨true, false, false, [⟨0, some 1, none, none⟩]⟩

def storeG : List (String × DataFrame) := [(gName, dfG)]

/-- A row carrying only a predicted value. -/
def rowP : Row := ⟨0, none, some 3, none⟩

/-- A frame with only a `predictions` column. -/
def dfP : DataFrame := ⟨false, true, false, [rowP]⟩

def storeP : List (String × DataFrame) := [(pName, dfP)]

/-- The loop state after processing `storeP` over the window `[0, 0]`. -/
def stP : LoopState := ⟨false, [3], [mkPredTrace pName [rowP] PredCol.preds]⟩

/- ## The claims -/

/-- C7 (confirmed): every figure produced by `update_graph` contains at most
one solid ground-truth ("Actual Values") trace, no matter how many of the
selected models carry ground-truth data: the `ground_truth_plotted` flag is
set with the first emission and never reset. -/
theorem spec2proof_C7 (models_data : List (String × DataFrame))
    (date_list : List ℤ) (sel : List String) (r : ℤ × ℤ) :
    ((update_graph models_data date_list sel r).traces.filter
      (fun t => !t.dashed)).length ≤ 1 := by
  unfold update_graph
  cases hE : updateGraphE models_data date_list sel r with
  | error er => simp [errorFigure]
  | ok fig =>
    unfold updateGraphE at hE
    cases hp1 : pyGet date_list r.1 with
    | error er =>
      simp only [hp1] at hE
      exact Except.noConfusion hE
    | ok s =>
      simp only [hp1] at hE
      cases hp2 : pyGet date_list r.2 with
      | error er =>
        simp only [hp2] at hE
        exact Except.noConfusion hE
      | ok e =>
        simp only [hp2] at hE
        cases hpm : processModels models_data s e ⟨false, [], []⟩ sel with
        | error er =>
          simp only [hpm] at hE
          exact Except.noConfusion hE
        | ok st =>
          simp only [hpm] at hE
          obtain ⟨htr, _⟩ := processModels_gt_char models_data s e sel _ _ rfl hpm
          have hfig : fig.traces = st.traces := by
            cases hmx : pyMax st.allValues <;> simp only [hmx] at hE <;>
              cases hE <;> rfl
          simp only []
          rw [hfig, htr]
          simpa using actualsOf_length_le models_data s e sel

/-- C4 (confirmed): whenever `all_values` is non-empty after the loop, the
y-axis configuration is `y_min = 0`, `dtick = 2000`, and
`y_max = ((max(all_values) // 2000) + 1) * 2000`, which is a multiple of
2000 strictly greater than the maximum plotted value; in particular a
maximum of 1999 gives 2000 and a maximum of 2000 gives 4000. -/
theorem spec2proof_C4 (models_data : List (String × DataFrame))
    (date_list : List ℤ) (sel : List String) (r : ℤ × ℤ) (s e : ℤ)
    (st : LoopState) (m : ℚ)
    (h1 : pyGet date_list r.1 = .ok s) (h2 : pyGet date_list r.2 = .ok e)
    (h3 : processModels models_data s e ⟨false, [], []⟩ sel = .ok st)
    (h4 : pyMax st.allValues = some m) :
    (update_graph models_data date_list sel r).yaxis = some ⟨0, yMaxOf m, 2000⟩
    ∧ m < yMaxOf m
    ∧ (∃ k : ℤ, yMaxOf m = (k : ℚ) * 2000)
    ∧ yMaxOf 1999 = 2000 ∧ yMaxOf 2000 = 4000 := by
  refine ⟨?_, yMaxOf_gt m, ⟨qfloor (m / 2000) + 1, rfl⟩, yMaxOf_1999, yMaxOf_2000⟩
  rw [update_graph_eq models_data date_list sel r s e st h1 h2 h3, h4]

/-- Witness for C4 at a one-model, one-value store. -/
theorem spec2proof_C4_witness :
    pyGet [(0 : ℤ)] (0 : ℤ) = .ok 0
    ∧ processModels storeP 0 0 ⟨false, [], []⟩ [pName] = .ok stP
    ∧ pyMax stP.allValues = some 3
    ∧ ((update_graph storeP [0] [pName] (0, 0)).yaxis = some ⟨0, yMaxOf 3, 2000⟩
      ∧ (3 : ℚ) < yMaxOf 3
      ∧ (∃ k : ℤ, yMaxOf 3 = (k : ℚ) * 2000)
      ∧ yMaxOf 1999 = 2000 ∧ yMaxOf 2000 = 4000) :=
  ⟨rfl, rfl, rfl,
    spec2proof_C4 storeP [0] [pName] (0, 0) 0 0 stP 3 rfl rfl rfl rfl⟩

/-- C8 (corrected): when `all_values` is empty after the loop the figure is
returned without error with no axis configuration — but also with no title
at all (the title is only set inside the non-empty branch), and an empty
selection yields a figure with no traces. -/
theorem spec2proof_C8 (models_data : List (String × DataFrame))
    (date_list : List ℤ) (sel : List String) (r : ℤ × ℤ) (s e : ℤ)
    (st : LoopState)
    (h1 : pyGet date_list r.1 = .ok s) (h2 : pyGet date_list r.2 = .ok e)
    (h3 : processModels models_data s e ⟨false, [], []⟩ sel = .ok st)
    (h4 : st.allValues = []) :
    update_graph models_data date_list sel r = ⟨st.traces, none, none⟩
    ∧ (sel = [] → update_graph models_data date_list sel r = ⟨[], none, none⟩) := by
  have hmx : pyMax st.allValues = none := by
    rw [h4]
    rfl
  constructor
  · rw [update_graph_eq models_data date_list sel r s e st h1 h2 h3, hmx]
  · intro hsel
    subst hsel
    have hst : st = ⟨false, [], []⟩ := by
      simp only [processModels] at h3
      exact (Except.ok.inj h3).symm
    rw [update_graph_eq models_data date_list [] r s e st h1 h2 h3, hmx, hst]

/-- Witness for C8 at the empty selection. -/
theorem spec2proof_C8_witness :
    pyGet [(0 : ℤ)] (0 : ℤ) = .ok 0
    ∧ processModels [] 0 0 ⟨false, [], []⟩ [] = .ok ⟨false, [], []⟩
    ∧ (update_graph [] [(0 : ℤ)] [] (0, 0)
          = ⟨(⟨false, [], []⟩ : LoopState).traces, none, none⟩
      ∧ (([] : List String) = [] →
          update_graph [] [(0 : ℤ)] [] (0, 0) = ⟨[], none, none⟩)) :=
  ⟨rfl, rfl,
    spec2proof_C8 [] [(0 : ℤ)] [] (0, 0) 0 0 ⟨false, [], []⟩ rfl rfl rfl rfl⟩

/-- Counterexample to C8 as stated: with an empty selection the returned
figure has no title at all, not a title indicating the active date window
(and no axis configuration, and no traces). -/
theorem spec2proof_C8_counterexample :
    (update_graph [] [(0 : ℤ)] [] (0, 0)).title = none
    ∧ (update_graph [] [(0 : ℤ)] [] (0, 0)).yaxis = none
    ∧ (update_graph [] [(0 : ℤ)] [] (0, 0)).traces = [] :=
  ⟨rfl, rfl, rfl⟩

/-- C9 (corrected): a slider index outside the range Python accepts
(`i < -len` or `i ≥ len`) raises `IndexError`, which the catch-all turns
into the empty diagnostic figure titled with the error text — the session
never crashes.  (A negative index inside `[-len, -1]` also violates the
`0 ≤ startIndex` invariant but raises nothing: Python indexes from the end
and a normal chart is produced; see the counterexample.) -/
theorem spec2proof_C9 (models_data : List (String × DataFrame))
    (date_list : List ℤ) (sel : List String) (r : ℤ × ℤ)
    (h : pyOutOfRange date_list.length r.1 ∨ pyOutOfRange date_list.length r.2) :
    update_graph models_data date_list sel r = errorFigure PyErr.indexError.msg
    ∧ (errorFigure PyErr.indexError.msg).traces = []
    ∧ (errorFigure PyErr.indexError.msg).title
        = some (errTitle ++ PyErr.indexError.msg) := by
  refine ⟨?_, rfl, rfl⟩
  unfold update_graph updateGraphE
  rcases h with h | h
  · simp only [pyGet_out date_list r.1 h]
  · cases hp1 : pyGet date_list r.1 with
    | error er =>
      simp only [hp1, pyGet_error date_list r.1 er hp1]
    | ok s =>
      simp only [hp1, pyGet_out date_list r.2 h]

/-- Witness for C9 at an index past the end of the date list. -/
theorem spec2proof_C9_witness :
    pyOutOfRange ([(0 : ℤ)].length) 5
    ∧ (update_graph [] [(0 : ℤ)] [] (5, 0) = errorFigure PyErr.indexError.msg
      ∧ (errorFigure PyErr.indexError.msg).traces = []
      ∧ (errorFigure PyErr.indexError.msg).title
          = some (errTitle ++ PyErr.indexError.msg)) :=
  ⟨Or.inr (by decide),
    spec2proof_C9 [] [(0 : ℤ)] [] (5, 0) (Or.inl (Or.inr (by decide)))⟩

/-- Counterexample to C9 as stated: the range index `-1` violates the
`0 ≤ startIndex` part of the SelectionState invariant, yet no error is
raised and no diagnostic chart is produced — Python indexes from the end
and a normal untitled figure is returned. -/
theorem spec2proof_C9_counterexample :
    ¬ (0 : ℤ) ≤ -1
    ∧ (update_graph [] [(0 : ℤ), 1] [] (-1, 1)).title = none
    ∧ (update_graph [] [(0 : ℤ), 1] [] (-1, 1)).traces = [] :=
  ⟨by decide, rfl, rfl⟩

/-- C10 (confirmed): `update_graph` is total — whatever the body of the
`try` block does, the callback returns a figure: the successful figure when
the body succeeds, and the error-titled diagnostic figure for every
exception; in particular a selected model absent from the store (a case the
spec's error taxonomy does not cover) raises `KeyError`, which is caught
and converted like every other exception. -/
theorem spec2proof_C10 (models_data : List (String × DataFrame))
    (date_list : List ℤ) (sel : List String) (r : ℤ × ℤ) :
    (∀ fig, updateGraphE models_data date_list sel r = .ok fig →
        update_graph models_data date_list sel r = fig)
    ∧ (∀ er, updateGraphE models_data date_list sel r = .error er →
        update_graph models_data date_list sel r = errorFigure er.msg)
    ∧ ((∃ m, m ∈ sel ∧ models_data.lookup m = none) →
        ∀ s e, pyGet date_list r.1 = .ok s → pyGet date_list r.2 = .ok e →
        ∃ k, k ∈ sel ∧ models_data.lookup k = none ∧
          update_graph models_data date_list sel r
            = errorFigure (PyErr.keyError k).msg) := by
  refine ⟨?_, ?_, ?_⟩
  · intro fig h
    unfold update_graph
    rw [h]
  · intro er h
    unfold update_graph
    rw [h]
  · intro habs s e h1 h2
    obtain ⟨k, hk1, hk2, hk3⟩ :=
      processModels_error_of_absent models_data s e sel ⟨false, [], []⟩ habs
    refine ⟨k, hk1, hk2, ?_⟩
    unfold update_graph updateGraphE
    simp only [h1, h2, hk3]

/-- Witness for C10 with a selected model that is absent from the store. -/
theorem spec2proof_C10_witness :
    ∃ k, k ∈ [xName] ∧ (([] : List (String × DataFrame)).lookup k = none) ∧
      update_graph [] [(0 : ℤ)] [xName] (0, 0)
        = errorFigure (PyErr.keyError k).msg :=
  (spec2proof_C10 [] [(0 : ℤ)] [xName] (0, 0)).2.2
    ⟨xName, by simp, rfl⟩ 0 0 rfl rfl

/-- C1 (corrected): the solid ground-truth line is emitted exactly when the
flag is still unset and the model's frame HAS a `groundtruth` column — the
code checks column presence, not whether the filtered window carries any
non-null value.  The line uses every filtered row's ground-truth cell
(nulls as gaps), its non-null values are appended to `all_values`, the flag
is set, and so the line comes from the first selected model (in selection
order) whose frame has a `groundtruth` column. -/
theorem spec2proof_C1 (models_data : List (String × DataFrame))
    (date_list : List ℤ) (sel : List String) (r : ℤ × ℤ) (s e : ℤ)
    (st : LoopState)
    (h1 : pyGet date_list r.1 = .ok s) (h2 : pyGet date_list r.2 = .ok e)
    (h3 : processModels models_data s e ⟨false, [], []⟩ sel = .ok st) :
    (update_graph models_data date_list sel r).traces.filter (fun t => !t.dashed)
        = actualsOf models_data s e sel
      ∧ st.gtPlotted = (sel.find? (hasGTin models_data)).isSome
      ∧ (∀ m df, sel.find? (hasGTin models_data) = some m →
          models_data.lookup m = some df →
          ∃ pre post,
            st.allValues = pre ++ dropna ((filterRange df s e).map (·.gt)) ++ post) := by
  obtain ⟨htr, hfl⟩ := processModels_gt_char models_data s e sel _ _ rfl h3
  refine ⟨?_, hfl, ?_⟩
  · rw [update_graph_eq models_data date_list sel r s e st h1 h2 h3]
    cases pyMax st.allValues <;> simpa using htr
  · intro m df hfind hdm
    exact processModels_gt_infix models_data s e sel _ _ rfl h3 m df hfind hdm

/-- Witness for C1 at a one-model store whose frame carries ground truth. -/
theorem spec2proof_C1_witness :
    pyGet [(0 : ℤ)] (0 : ℤ) = .ok 0
    ∧ processModels storeA 0 0 ⟨false, [], []⟩ [aName] = .ok stA
    ∧ ((update_graph storeA [0] [aName] (0, 0)).traces.filter (fun t => !t.dashed)
          = actualsOf storeA 0 0 [aName]
      ∧ stA.gtPlotted = ([aName].find? (hasGTin storeA)).isSome
      ∧ (∀ m df, [aName].find? (hasGTin storeA) = some m →
          storeA.lookup m = some df →
          ∃ pre post,
            stA.allValues = pre ++ dropna ((filterRange df 0 0).map (·.gt)) ++ post)) :=
  ⟨rfl, rfl, spec2proof_C1 storeA [0] [aName] (0, 0) 0 0 stA rfl rfl rfl⟩

/-- Counterexample to C1 as stated: a model whose frame has a `groundtruth`
column but no non-null ground-truth value anywhere in the window still gets
the solid "Actual Values" line emitted (and the flag set) — emission does
not require a non-null value in the filtered rows. -/
theorem spec2proof_C1_counterexample :
    ((update_graph storeGTnull [0] [mName] (0, 0)).traces.filter
        (fun t => !t.dashed)).length = 1
    ∧ dropna ((filterRange dfGTnull 0 0).map (·.gt)) = [] :=
  ⟨rfl, rfl⟩

/-- C6 (corrected): each selected model whose frame has a predicted-value
column under one of the two accepted names contributes exactly one dashed
trace (labeled with the model name with the known result-file patterns
removed, preferring the `predictions` column), regardless of whether the
ground-truth line was emitted, and its non-null filtered values are
appended to `all_values`; a selected model with NEITHER predicted-value
column contributes no dashed trace at all. -/
theorem spec2proof_C6 (models_data : List (String × DataFrame))
    (date_list : List ℤ) (sel : List String) (r : ℤ × ℤ) (s e : ℤ)
    (st : LoopState)
    (h1 : pyGet date_list r.1 = .ok s) (h2 : pyGet date_list r.2 = .ok e)
    (h3 : processModels models_data s e ⟨false, [], []⟩ sel = .ok st) :
    (update_graph models_data date_list sel r).traces.filter (fun t => t.dashed)
        = sel.flatMap (predTraceFor models_data s e)
      ∧ (∀ m df c, m ∈ sel → models_data.lookup m = some df →
          predColOf df = some c →
          ∃ pre post,
            st.allValues
              = pre ++ dropna ((filterRange df s e).map (fun x => x.cell c)) ++ post) := by
  constructor
  · rw [update_graph_eq models_data date_list sel r s e st h1 h2 h3]
    have hpc := processModels_pred_char models_data s e sel _ _ h3
    cases pyMax st.allValues <;> simpa using hpc
  · intro m df c hm hd hc
    exact processModels_pred_infix models_data s e sel _ _ h3 m df c hm hd hc

/-- Witness for C6 at a one-model store with a `predictions` column. -/
theorem spec2proof_C6_witness :
    pyGet [(0 : ℤ)] (0 : ℤ) = .ok 0
    ∧ processModels storeA 0 0 ⟨false, [], []⟩ [aName] = .ok stA
    ∧ ((update_graph storeA [0] [aName] (0, 0)).traces.filter (fun t => t.dashed)
          = [aName].flatMap (predTraceFor storeA 0 0)
      ∧ (∀ m df c, m ∈ [aName] → storeA.lookup m = some df →
          predColOf df = some c →
          ∃ pre post,
            stA.allValues
              = pre ++ dropna ((filterRange df 0 0).map (fun x => x.cell c)) ++ post)) :=
  ⟨rfl, rfl, spec2proof_C6 storeA [0] [aName] (0, 0) 0 0 stA rfl rfl rfl⟩

/-- Counterexample to C6 as stated: a selected model present in the store
whose frame has only a `groundtruth` column (no `predictions` and no
`predicted values` column) contributes no dashed trace to the figure. -/
theorem spec2proof_C6_counterexample :
    storeG.lookup gName = some dfG
    ∧ (update_graph storeG [0] [gName] (0, 0)).traces.filter (fun t => t.dashed) = [] :=
  ⟨rfl, rfl⟩

/-- A record with rows but with neither a predicted-value column under
either accepted alias nor a ground-truth column. -/
def recNoCols : RawRecord := ⟨false, false, false, [⟨0, none, none, none⟩]⟩

/-- C2 (corrected): the loading loop fails — with the pandas empty
date-range error, there is no `ScheduleError` class — exactly on records
with zero rows; a record that has neither predicted-value column nor
ground-truth column loads WITHOUT error (no `SchemaError` exists), so that
failure mode is not reported at load time at all. -/
theorem spec2proof_C2 (rec : RawRecord) :
    (rec.rows = [] → loadRecord rec = .error .emptyDateRange)
    ∧ (rec.rows ≠ [] → ∃ df, loadRecord rec = .ok df
        ∧ df.hasGT = rec.hasGT ∧ df.hasPreds = rec.hasPreds
        ∧ df.hasPredVals = rec.hasPredVals) := by
  constructor
  · intro h
    have hs : sortByDate rec.rows = [] := (sortByDate_nil_iff rec.rows).mpr h
    unfold loadRecord
    simp only [hs]
    rfl
  · intro h
    obtain ⟨a, l, hs⟩ : ∃ a l, sortByDate rec.rows = a :: l := by
      cases hs : sortByDate rec.rows with
      | nil => exact absurd ((sortByDate_nil_iff rec.rows).mp hs) h
      | cons a l => exact ⟨a, l, rfl⟩
    obtain ⟨lo, hlo⟩ : ∃ lo, minDate? (sortByDate rec.rows) = some lo := by
      rw [hs]
      exact ⟨_, rfl⟩
    obtain ⟨hi, hhi⟩ : ∃ hi, maxDate? (sortByDate rec.rows) = some hi := by
      rw [hs]
      exact ⟨_, rfl⟩
    refine ⟨⟨rec.hasGT, rec.hasPreds, rec.hasPredVals,
      interpColumns rec.hasGT rec.hasPreds rec.hasPredVals
        (mergeLeft (dateRange lo hi) (sortByDate rec.rows))⟩, ?_, rfl, rfl, rfl⟩
    unfold loadRecord
    simp only [hlo, hhi]

/-- Witness for C2: the no-plottable-column record loads successfully. -/
theorem spec2proof_C2_witness :
    recNoCols.rows ≠ []
    ∧ ∃ df, loadRecord recNoCols = .ok df
        ∧ df.hasGT = recNoCols.hasGT ∧ df.hasPreds = recNoCols.hasPreds
        ∧ df.hasPredVals = recNoCols.hasPredVals :=
  ⟨by decide, (spec2proof_C2 recNoCols).2 (by decide)⟩

/-- Counterexample to C2 as stated: a record with one row and no
`groundtruth`, `predictions` or `predicted values` column loads without
any error — no `SchemaError` is raised at load time. -/
theorem spec2proof_C2_counterexample :
    recNoCols.hasGT = false ∧ recNoCols.hasPreds = false
    ∧ recNoCols.hasPredVals = false ∧ recNoCols.rows ≠ []
    ∧ loadRecord recNoCols = .ok ⟨false, false, false, [⟨0, none, none, none⟩]⟩ :=
  ⟨rfl, rfl, rfl, by decide, rfl⟩

/-- C3 (corrected): after interpolation of a column, a null cell with no
non-null entry at or before it stays null (leading nulls are never filled)
and a fully-null column is unchanged; but a null cell with a non-null
entry before it and none after it is FILLED with that nearest previous
value — pandas `interpolate(method="linear")` pads past the last valid
observation, so trailing nulls do not stay null. -/
theorem spec2proof_C3 (xs : List (Option ℚ)) (i : ℕ) :
    ((∀ j, j ≤ i → xs.get? j = some none) → i < xs.length →
        (interpolateList xs).get? i = some none)
    ∧ ((∀ x ∈ xs, x = none) → interpolateList xs = xs)
    ∧ (∀ j v, xs.get? i = some none → prevSome xs i = some (j, v) →
        (∀ k, i < k → ∀ w, xs.get? k ≠ some (some w)) →
        (interpolateList xs).get? i = some (some v)) := by
  refine ⟨?_, ?_, ?_⟩
  · intro hlead hi
    rw [interpolateList_get? xs i hi]
    have hprev : prevSome xs i = none := by
      apply prevSome_eq_none
      intro j hj v hv
      rw [hlead j (le_of_lt hj)] at hv
      exact Option.noConfusion (Option.some.inj hv)
    unfold interpCell
    rw [hlead i le_rfl, hprev]
  · intro hall
    apply List.ext
    intro n
    by_cases hn : n < xs.length
    · rw [interpolateList_get? xs n hn]
      have hxn : xs.get? n = some none := by
        cases hg : xs.get? n with
        | none =>
          rw [List.get?_eq_none] at hg
          omega
        | some o =>
          rw [hall o (List.get?_mem hg)]
      have hprev : prevSome xs n = none := by
        apply prevSome_eq_none
        intro j hj v hv
        have : (some v : Option ℚ) = none := hall (some v) (List.get?_mem hv)
        exact Option.noConfusion this
      rw [hxn]
      unfold interpCell
      rw [hxn, hprev]
    · have hx1 : xs.get? n = none := List.get?_eq_none.mpr (by omega)
      have hx2 : (interpolateList xs).get? n = none := by
        rw [List.get?_eq_none, interpolateList_length]
        omega
      rw [hx1, hx2]
  · intro j v hnull hprev hafter
    have hi : i < xs.length := by
      by_cases h : i < xs.length
      · exact h
      · rw [List.get?_eq_none.mpr (by omega)] at hnull
        exact Option.noConfusion hnull
    rw [interpolateList_get? xs i hi]
    unfold interpCell
    rw [hnull, hprev, nextSome_eq_none xs i hafter]

/-- Witness for C3: a leading null stays null, an all-null column is
unchanged, and a trailing null is filled with the last non-null value. -/
theorem spec2proof_C3_witness :
    (interpolateList [none, some 1]).get? 0 = some none
    ∧ interpolateList [none] = [none]
    ∧ (interpolateList [some 1, none]).get? 1 = some (some 1) := by
  refine ⟨?_, ?_, ?_⟩
  · exact (spec2proof_C3 [none, some 1] 0).1
      (fun j hj => by
        cases Nat.le_zero.mp hj
        rfl)
      (by decide)
  · exact (spec2proof_C3 [none] 0).2.1 (by simp)
  · exact (spec2proof_C3 [some 1, none] 1).2.2 0 1 rfl rfl
      (fun k hk w hw => by
        rw [List.get?_eq_none.mpr (by simp; omega)] at hw
        exact Option.noConfusion hw)

/-- Counterexample to C3 as stated: the column `[1, null]` interpolates to
`[1, 1]` — the trailing null, which has no non-null neighbor after it, is
filled rather than left null; the same happens through the whole loading
pipeline for a record whose ground truth is absent on its last day. -/
theorem spec2proof_C3_counterexample :
    interpolateList [some 1, none] = [some 1, some 1]
    ∧ loadRecord ⟨true, false, false, [⟨0, some 1, none, none⟩, ⟨1, none, none, none⟩]⟩
        = .ok ⟨true, false, false, [⟨0, some 1, none, none⟩, ⟨1, some 1, none, none⟩]⟩ :=
  ⟨rfl, rfl⟩

/-- C5 (corrected): for a record with at least two rows whose dates are
pairwise distinct and whose dates span the interval from `lo` to `hi`, the
canonical series has exactly `(hi - lo) + 1` rows whose dates form the
contiguous daily sequence from `lo` to `hi`; with duplicate dates the
left-outer merge duplicates calendar rows and the count exceeds `N + 1`
(see the counterexample). -/
theorem spec2proof_C5 (rec : RawRecord) (lo hi : ℤ)
    (hlen : 2 ≤ rec.rows.length)
    (hnd : (rec.rows.map (·.date)).Nodup)
    (hlo : minDate? rec.rows = some lo) (hhi : maxDate? rec.rows = some hi) :
    ∃ df, loadRecord rec = .ok df
      ∧ df.rows.map (·.date) = dateRange lo hi
      ∧ df.rows.length = (hi - lo).toNat + 1
      ∧ (∀ i : ℕ, i < df.rows.length →
          (df.rows.map (·.date)).get? i = some (lo + (i : ℤ))) := by
  have hslo : minDate? (sortByDate rec.rows) = some lo := by
    rw [minDate?_sortByDate]
    exact hlo
  have hshi : maxDate? (sortByDate rec.rows) = some hi := by
    rw [maxDate?_sortByDate]
    exact hhi
  have hle : lo ≤ hi := minDate?_le_maxDate? hlo hhi
  have hndS : ((sortByDate rec.rows).map (·.date)).Nodup :=
    (((sortByDate_perm rec.rows).map (·.date)).nodup_iff).mpr hnd
  have hcnt := filter_date_len_le (sortByDate rec.rows) hndS
  have hmd : (mergeLeft (dateRange lo hi) (sortByDate rec.rows)).map (·.date)
      = dateRange lo hi := mergeLeft_map_date (sortByDate rec.rows) hcnt _
  have hdates : (interpColumns rec.hasGT rec.hasPreds rec.hasPredVals
        (mergeLeft (dateRange lo hi) (sortByDate rec.rows))).map (·.date)
      = dateRange lo hi := by
    rw [interpColumns_map_date]
    exact hmd
  have hlength : (interpColumns rec.hasGT rec.hasPreds rec.hasPredVals
        (mergeLeft (dateRange lo hi) (sortByDate rec.rows))).length
      = (hi - lo).toNat + 1 := by
    have h1 := congrArg List.length hdates
    rw [List.length_map, dateRange_length lo hi hle] at h1
    exact h1
  refine ⟨⟨rec.hasGT, rec.hasPreds, rec.hasPredVals,
    interpColumns rec.hasGT rec.hasPreds rec.hasPredVals
      (mergeLeft (dateRange lo hi) (sortByDate rec.rows))⟩, ?_, hdates, hlength, ?_⟩
  · unfold loadRecord
    simp only [hslo, hshi]
  · intro i hi2
    rw [hdates]
    apply dateRange_get?
    rw [hlength] at hi2
    omega

/-- Witness for C5 at a two-row record with distinct dates one day apart. -/
theorem spec2proof_C5_witness :
    2 ≤ (⟨true, false, false,
        [⟨0, some 1, none, none⟩, ⟨1, none, none, none⟩]⟩ : RawRecord).rows.length
    ∧ ((⟨true, false, false,
        [⟨0, some 1, none, none⟩, ⟨1, none, none, none⟩]⟩ : RawRecord).rows.map
          (·.date)).Nodup
    ∧ ∃ df, loadRecord ⟨true, false, false,
          [⟨0, some 1, none, none⟩, ⟨1, none, none, none⟩]⟩ = .ok df
        ∧ df.rows.map (·.date) = dateRange 0 1
        ∧ df.rows.length = ((1 : ℤ) - 0).toNat + 1
        ∧ (∀ i : ℕ, i < df.rows.length →
            (df.rows.map (·.date)).get? i = some (0 + (i : ℤ))) :=
  ⟨by decide, by decide,
    spec2proof_C5 ⟨true, false, false,
        [⟨0, some 1, none, none⟩, ⟨1, none, none, none⟩]⟩ 0 1
      (by decide) (by decide) (by decide) (by decide)⟩

/-- A record with two rows on the same date. -/
def recDup : RawRecord :=
  ⟨true, false, false, [⟨0, some 1, none, none⟩, ⟨0, some 2, none, none⟩]⟩

/-- Counterexample to C5 as stated: a record with two rows sharing one date
spans zero days, so the claim demands exactly one canonical row, but the
left-outer merge keeps both matching rows and the canonical series has two
rows. -/
theorem spec2proof_C5_counterexample :
    2 ≤ recDup.rows.length
    ∧ minDate? recDup.rows = some 0 ∧ maxDate? recDup.rows = some 0
    ∧ (loadRecord recDup).toOption.map (fun df => df.rows.length) = some 2
    ∧ ((0 : ℤ) - 0).toNat + 1 = 1 :=
  ⟨by decide, rfl, rfl, rfl, rfl⟩
